import Mathlib

/-!
Shallow embedding of the payment/settlement pipeline of the `sellpdf` backend
(`src/services/payment.service.js`, `src/config/index.js`, `src/database/schema.sql`).

Modelling conventions:
* UUIDs are modelled as `Nat`; monetary `NUMERIC(10,2)` columns as `ℚ`.
* The database is an explicit record of row lists; every `pool.query` is a pure
  transformation of that record.  Timestamp columns are omitted.
* `crypto.createHmac(...)` and `JSON.parse` plus payload extraction are external
  capabilities, passed in as functions in an `Env` record.
* JavaScript `Math.round` and `Number.prototype.toFixed(2)` (on the exact decimal
  values handled here) round half away from zero; on the non-negative amounts of
  this service that is Mathlib's `round` (half up).
* `Number(s) || 0.10` in the config: `Number` yields `NaN` for absent/non-numeric
  input, and `NaN` and `0` are falsy, so the parsed value is modelled as
  `Option ℚ` with `none` for the `NaN` case.
-/

/-- Rounding to 2 decimal places, as `+(x).toFixed(2)` does on the exact
decimal amounts of this service. -/
def round2 (q : ℚ) : ℚ := (round (q * 100) : ℤ) / 100

/-- `config.platform.commissionRate = Number(process.env.PLATFORM_COMMISSION_RATE) || 0.10`
(`src/config/index.js`): `envValue` is the result of `Number(...)`, with `none`
standing for `NaN` (variable unset or non-numeric); `NaN` and `0` are falsy, so
`||` replaces both with `0.10`. -/
def platformCommissionRate (envValue : Option ℚ) : ℚ :=
  match envValue with
  | none => 1/10
  | some q => if q = 0 then 1/10 else q

/-- `platformFee = +(totalAmount * config.platform.commissionRate).toFixed(2)`
(payment.service.js line 188). -/
def platformFee (totalAmount rate : ℚ) : ℚ := round2 (totalAmount * rate)

/-- `sellerAmount = +(totalAmount - platformFee).toFixed(2)`
(payment.service.js line 189). -/
def sellerAmount (totalAmount rate : ℚ) : ℚ :=
  round2 (totalAmount - platformFee totalAmount rate)

/-- A row of `pdf_products` (the columns the payment service reads). -/
structure Product where
  id : Nat
  seller_id : Nat
  price : ℚ
deriving DecidableEq, Repr

/-- `purchases.status`: `CHECK (status IN ('pending','paid','failed'))`. -/
inductive PStatus
  | pending
  | paid
  | failed
deriving DecidableEq, Repr

/-- A row of `purchases` (timestamps omitted). -/
structure Purchase where
  id : Nat
  buyer_id : Nat
  product_id : Nat
  razorpay_order_id : Option String
  razorpay_payment_id : Option String
  amount : ℚ
  status : PStatus
deriving DecidableEq, Repr

/-- A row of `earnings` (id and timestamp omitted). -/
structure Earning where
  purchase_id : Nat
  seller_id : Nat
  total_amount : ℚ
  platform_fee : ℚ
  seller_amount : ℚ
deriving DecidableEq, Repr

/-- An order created remotely at the payment gateway by
`razorpay.orders.create({amount, ...})`; recorded so that "no gateway call is
made" is an observable statement. -/
structure GatewayOrder where
  id : String
  amount : ℤ
deriving DecidableEq, Repr

/-- The durable state the payment service acts on. -/
structure DB where
  products : List Product
  purchases : List Purchase
  earnings : List Earning
  gatewayOrders : List GatewayOrder
deriving DecidableEq, Repr

/-- `SELECT ... WHERE buyer_id = $1 AND product_id = $2` row predicate. -/
def pairMatch (buyerId productId : Nat) (pc : Purchase) : Bool :=
  pc.buyer_id == buyerId && pc.product_id == productId

/-- Row predicate of the conditional settlement update:
`WHERE razorpay_order_id = $2 AND status = 'pending'`. -/
def webhookMatch (orderId : String) (pc : Purchase) : Bool :=
  pc.razorpay_order_id == some orderId && pc.status == PStatus.pending

/-- Effect of `UPDATE purchases SET status='paid', razorpay_payment_id=$1 WHERE
razorpay_order_id=$2 AND status='pending'` on a single row. -/
def markPaid (paymentId orderId : String) (pc : Purchase) : Purchase :=
  if webhookMatch orderId pc
  then { pc with status := .paid, razorpay_payment_id := some paymentId }
  else pc

/-- Errors thrown by `createOrder` (`err.status` 404 / 400 / 409). -/
inductive SvcError
  | notFound
  | selfPurchase
  | alreadyOwned
deriving DecidableEq, Repr

/-- Successful result of `createOrder`: either the free-path acquisition or the
gateway order reference plus the amount in minor units. -/
inductive OrderResult
  | free
  | paidOrder (order_id : String) (amount : ℤ)
deriving DecidableEq, Repr

/-- Steps 3–4 of `createOrder` (payment.service.js lines 84–135), after the
duplicate check: branch on `price === 0`.  Free path: insert a `paid` purchase
of amount 0 and a zero earnings row, no gateway order.  Paid path: create a
gateway order for `Math.round(price * 100)` minor units, insert a `pending`
purchase storing the order id (amount column stores `price`). -/
def createOrderInsert (buyerId productId newPurchaseId : Nat) (newOrderId : String)
    (product : Product) (db : DB) : Except SvcError OrderResult × DB :=
  if product.price = 0 then
    (.ok .free,
      { db with
        purchases := db.purchases ++
          [⟨newPurchaseId, buyerId, productId, none, none, 0, .paid⟩],
        earnings := db.earnings ++
          [⟨newPurchaseId, product.seller_id, 0, 0, 0⟩] })
  else
    (.ok (.paidOrder newOrderId (round (product.price * 100))),
      { db with
        gatewayOrders := db.gatewayOrders ++
          [⟨newOrderId, round (product.price * 100)⟩],
        purchases := db.purchases ++
          [⟨newPurchaseId, buyerId, productId, some newOrderId, none,
            product.price, .pending⟩] })

/-- `createOrder({buyerId, productId})` (payment.service.js lines 44–135).
`newPurchaseId` models the UUID the database generates for an inserted
purchase; `newOrderId` models the order id returned by the gateway. -/
def createOrder (buyerId productId newPurchaseId : Nat) (newOrderId : String)
    (db : DB) : Except SvcError OrderResult × DB :=
  match db.products.find? (fun p => p.id == productId) with
  | none => (.error .notFound, db)
  | some product =>
    if product.seller_id == buyerId then (.error .selfPurchase, db)
    else
      match db.purchases.find? (pairMatch buyerId productId) with
      | some existing =>
        if existing.status = .paid then (.error .alreadyOwned, db)
        else
          createOrderInsert buyerId productId newPurchaseId newOrderId product
            { db with purchases := db.purchases.filter (fun pc => pc.id != existing.id) }
      | none => createOrderInsert buyerId productId newPurchaseId newOrderId product db

/-- The webhook event record extracted from the verified body:
`event.event`, `event.payload.payment.entity.order_id`, `....id`. -/
structure Event where
  event : String
  order_id : String
  payment_id : String
deriving DecidableEq, Repr

/-- External capabilities and configuration of the webhook handler:
the HMAC-SHA256 primitive, the webhook secret, the configured commission rate
and the JSON parse/extraction of the event body (`none` when parsing throws). -/
structure Env where
  hmacSha256 : String → String → String
  webhookSecret : String
  commissionRate : ℚ
  parseEvent : String → Option Event

/-- Outcome of `handleWebhook`: thrown errors (`invalidSignature` with status
400, `parseError` when `JSON.parse` throws, `sellerLookupFailed` when the
product row is gone, `dbFailure` when a `pool.query` call rejects) or the
returned result objects. -/
inductive WebhookOutcome
  | invalidSignature
  | parseError
  | sellerLookupFailed
  | dbFailure
  | ignored (event : String)
  | alreadyProcessed
  | success (purchase_id : Nat)
deriving DecidableEq, Repr

/-- `handleWebhook(rawBody, signature)` (payment.service.js lines 143–205),
on a run where every `pool.query` succeeds.  Each query commits on its own —
the source opens no transaction — so the state is threaded through every
outcome, including thrown errors. -/
def handleWebhook (env : Env) (rawBody signature : String) (db : DB) :
    WebhookOutcome × DB :=
  let expectedSig := env.hmacSha256 env.webhookSecret rawBody
  if expectedSig ≠ signature then (.invalidSignature, db)
  else
    match env.parseEvent rawBody with
    | none => (.parseError, db)
    | some event =>
      if event.event ≠ "payment.captured" then (.ignored event.event, db)
      else
        let orderId := event.order_id
        let paymentId := event.payment_id
        let matched := db.purchases.filter (webhookMatch orderId)
        let db1 := { db with purchases := db.purchases.map (markPaid paymentId orderId) }
        match matched with
        | [] => (.alreadyProcessed, db1)
        | purchase :: _ =>
          match db.products.find? (fun p => p.id == purchase.product_id) with
          | none => (.sellerLookupFailed, db1)
          | some product =>
            (.success purchase.id,
              { db1 with earnings := db1.earnings ++
                  [⟨purchase.id, product.seller_id, purchase.amount,
                    platformFee purchase.amount env.commissionRate,
                    sellerAmount purchase.amount env.commissionRate⟩] })

/-- `handleWebhook` with explicit failure of the individual `pool.query` calls
(the update, the seller lookup, the earnings insert): each is a network call
that can reject, and the source wraps them in no transaction, so a rejection
leaves every earlier statement committed. -/
def handleWebhookF (env : Env) (failUpdate failSelect failInsert : Bool)
    (rawBody signature : String) (db : DB) : WebhookOutcome × DB :=
  let expectedSig := env.hmacSha256 env.webhookSecret rawBody
  if expectedSig ≠ signature then (.invalidSignature, db)
  else
    match env.parseEvent rawBody with
    | none => (.parseError, db)
    | some event =>
      if event.event ≠ "payment.captured" then (.ignored event.event, db)
      else
        if failUpdate then (.dbFailure, db)
        else
          let orderId := event.order_id
          let paymentId := event.payment_id
          let matched := db.purchases.filter (webhookMatch orderId)
          let db1 := { db with purchases := db.purchases.map (markPaid paymentId orderId) }
          match matched with
          | [] => (.alreadyProcessed, db1)
          | purchase :: _ =>
            if failSelect then (.dbFailure, db1)
            else
              match db.products.find? (fun p => p.id == purchase.product_id) with
              | none => (.sellerLookupFailed, db1)
              | some product =>
                if failInsert then (.dbFailure, db1)
                else
                  (.success purchase.id,
                    { db1 with earnings := db1.earnings ++
                        [⟨purchase.id, product.seller_id, purchase.amount,
                          platformFee purchase.amount env.commissionRate,
                          sellerAmount purchase.amount env.commissionRate⟩] })

/-- A rational with at most 2 decimal places — the value set of a
`NUMERIC(10,2)` column. -/
def TwoDp (q : ℚ) : Prop := ∃ c : ℤ, q = (c : ℚ) / 100

/-- `round2` fixes every 2-decimal-place value. -/
theorem round2_twoDp {q : ℚ} (h : TwoDp q) : round2 q = q := by
  obtain ⟨c, rfl⟩ := h
  unfold round2
  rw [div_mul_cancel₀]
  · norm_num
  · norm_num

/-- `round2` always produces a 2-decimal-place value. -/
theorem twoDp_round2 (q : ℚ) : TwoDp (round2 q) := ⟨round (q * 100), rfl⟩

/-- The difference of 2-decimal-place values has 2 decimal places. -/
theorem twoDp_sub {a b : ℚ} (ha : TwoDp a) (hb : TwoDp b) : TwoDp (a - b) := by
  obtain ⟨c, rfl⟩ := ha
  obtain ⟨d, rfl⟩ := hb
  exact ⟨c - d, by push_cast; ring⟩

/-- Concrete fixtures used by witnesses: a deterministic stand-in for the HMAC
primitive and for JSON parsing of one fixed body. -/
def testHmac (secret body : String) : String := secret ++ ":" ++ body

/-- The parsed content of the fixed test body `rawbody1`. -/
def testEvent : Event := ⟨"payment.captured", "order_1", "pay_1"⟩

/-- Parse capability recognising only the fixed test body. -/
def testParse (s : String) : Option Event :=
  if s = "rawbody1" then some testEvent else none

/-- Test environment: secret `whsec`, commission rate 0.10. -/
def testEnv : Env := ⟨testHmac, "whsec", 1/10, testParse⟩

/-- The valid signature of the fixed test body. -/
def testSig : String := testHmac "whsec" "rawbody1"

/-- Product 10 sold by user 1 for 100.00. -/
def testProduct : Product := ⟨10, 1, 100⟩

/-- Purchase 20: buyer 2 bought product 10, order `order_1`, pending. -/
def testPendingPurchase : Purchase := ⟨20, 2, 10, some "order_1", none, 100, .pending⟩

/-- Database holding the test product, the pending purchase and its gateway
order, and no earnings. -/
def testDB : DB := ⟨[testProduct], [testPendingPurchase], [], [⟨"order_1", 10000⟩]⟩

theorem platformFee_100 : platformFee 100 (1/10) = 10 := by
  norm_num [platformFee, round2, round_eq]

theorem sellerAmount_100 : sellerAmount 100 (1/10) = 90 := by
  norm_num [sellerAmount, platformFee, round2, round_eq]

/-- The fully settled state of `testDB`: purchase 20 paid with payment
reference `pay_1`, one earnings row 100.00 = 10.00 + 90.00. -/
def testSettledDB : DB :=
  ⟨[testProduct], [⟨20, 2, 10, some "order_1", some "pay_1", 100, .paid⟩],
    [⟨20, 1, 100, 10, 90⟩], [⟨"order_1", 10000⟩]⟩

/-- Concrete evaluation of the settlement run on the test fixtures. -/
theorem handleWebhook_test_run :
    handleWebhook testEnv "rawbody1" testSig testDB = (.success 20, testSettledDB) := by
  simp [handleWebhook, testEnv, testParse, testHmac, testSig, testDB, testProduct,
    testPendingPurchase, testEvent, testSettledDB, webhookMatch, markPaid,
    List.filter, List.find?]
  norm_num [platformFee, sellerAmount, round2, round_eq]

/-- A row failing the settlement predicate is unchanged by the update. -/
theorem markPaid_of_not_match {pid oid : String} {pc : Purchase}
    (h : ¬ webhookMatch oid pc = true) : markPaid pid oid pc = pc := by
  simp [markPaid, h]

/-- A row satisfying the settlement predicate is set to `paid` with the payment
reference recorded. -/
theorem markPaid_of_match {pid oid : String} {pc : Purchase}
    (h : webhookMatch oid pc = true) :
    markPaid pid oid pc = { pc with status := .paid, razorpay_payment_id := some pid } := by
  simp [markPaid, h]

/-- After the settlement update, no row satisfies the predicate any more. -/
theorem webhookMatch_markPaid (pid oid : String) (pc : Purchase) :
    ¬ webhookMatch oid (markPaid pid oid pc) = true := by
  unfold markPaid
  split
  · simp [webhookMatch]
  · simp_all

/-- The settlement update leaves no matching pending row behind. -/
theorem filter_markPaid_eq_nil (pid oid : String) (l : List Purchase) :
    (l.map (markPaid pid oid)).filter (webhookMatch oid) = [] := by
  rw [List.filter_eq_nil_iff]
  intro pc hpc
  rw [List.mem_map] at hpc
  obtain ⟨q, _, rfl⟩ := hpc
  exact webhookMatch_markPaid pid oid q

/-- When no row matches, the settlement update is the identity. -/
theorem map_markPaid_of_filter_nil {pid oid : String} {l : List Purchase}
    (h : l.filter (webhookMatch oid) = []) : l.map (markPaid pid oid) = l := by
  rw [List.filter_eq_nil_iff] at h
  induction l with
  | nil => rfl
  | cons a t ih =>
    simp only [List.map_cons, List.cons.injEq]
    refine ⟨markPaid_of_not_match (h a (by simp)), ih fun x hx => h x (by simp [hx])⟩

/-- The single row returned by the conditional update matches and is in the table. -/
theorem match_of_filter_singleton {oid : String} {l : List Purchase} {p : Purchase}
    (h : l.filter (webhookMatch oid) = [p]) : webhookMatch oid p = true ∧ p ∈ l := by
  have hp : p ∈ l.filter (webhookMatch oid) := by rw [h]; simp
  have hp2 := List.mem_filter.mp hp
  exact ⟨hp2.2, hp2.1⟩

/-- Every other row fails the predicate when the filter is a singleton. -/
theorem not_match_of_filter_singleton {oid : String} {l : List Purchase} {p q : Purchase}
    (h : l.filter (webhookMatch oid) = [p]) (hq : q ∈ l) (hne : q ≠ p) :
    ¬ webhookMatch oid q = true := by
  intro hmatch
  have hmem : q ∈ l.filter (webhookMatch oid) := List.mem_filter.mpr ⟨hq, hmatch⟩
  rw [h] at hmem
  simp at hmem
  exact hne hmem

/-- Post-state of a successful settlement of purchase `p` of product `prod`:
the conditional update applied to every purchase row and exactly one earnings
row appended (payment.service.js lines 169–202). -/
def settledDB (env : Env) (ev : Event) (p : Purchase) (prod : Product) (db : DB) : DB :=
  { db with
    purchases := db.purchases.map (markPaid ev.payment_id ev.order_id),
    earnings := db.earnings ++
      [⟨p.id, prod.seller_id, p.amount,
        platformFee p.amount env.commissionRate,
        sellerAmount p.amount env.commissionRate⟩] }

/-- **C1** — `handleWebhook` is idempotent: a valid `payment.captured` event
whose order reference matches exactly one pending purchase transitions that
purchase (only) to `paid` and appends exactly one earnings row; redelivering
the same event to the resulting state returns `already_processed` and leaves
the state unchanged; any delivery whose order reference matches no pending
purchase (unknown orders included) returns `already_processed` without
mutating state or creating earnings. -/
theorem claim_C1_webhook_idempotent (env : Env) (rawBody sig : String) (ev : Event)
    (hsig : env.hmacSha256 env.webhookSecret rawBody = sig)
    (hparse : env.parseEvent rawBody = some ev)
    (hcap : ev.event = "payment.captured") :
    (∀ db p prod,
      db.purchases.filter (webhookMatch ev.order_id) = [p] →
      db.products.find? (fun q => q.id == p.product_id) = some prod →
      handleWebhook env rawBody sig db = (.success p.id, settledDB env ev p prod db) ∧
      markPaid ev.payment_id ev.order_id p =
        { p with status := .paid, razorpay_payment_id := some ev.payment_id } ∧
      (∀ q ∈ db.purchases, q ≠ p → markPaid ev.payment_id ev.order_id q = q) ∧
      handleWebhook env rawBody sig (settledDB env ev p prod db) =
        (.alreadyProcessed, settledDB env ev p prod db)) ∧
    (∀ db, db.purchases.filter (webhookMatch ev.order_id) = [] →
      handleWebhook env rawBody sig db = (.alreadyProcessed, db)) := by
  have hnomut : ∀ db : DB, db.purchases.filter (webhookMatch ev.order_id) = [] →
      handleWebhook env rawBody sig db = (.alreadyProcessed, db) := by
    intro db hnil
    simp [handleWebhook, hsig, hparse, hcap, hnil, map_markPaid_of_filter_nil hnil]
  refine ⟨?_, hnomut⟩
  intro db p prod hfilter hfind
  have hmatch := (match_of_filter_singleton hfilter).1
  refine ⟨?_, markPaid_of_match hmatch, ?_, ?_⟩
  · simp [handleWebhook, hsig, hparse, hcap, hfilter, hfind, settledDB]
  · intro q hq hne
    exact markPaid_of_not_match (not_match_of_filter_singleton hfilter hq hne)
  · apply hnomut
    simp [settledDB, filter_markPaid_eq_nil]

/-- Witness for C1: the concrete run on the test fixtures, first and second
delivery. -/
theorem claim_C1_witness :
    handleWebhook testEnv "rawbody1" testSig testDB =
      (.success 20, settledDB testEnv testEvent testPendingPurchase testProduct testDB) ∧
    handleWebhook testEnv "rawbody1" testSig
        (settledDB testEnv testEvent testPendingPurchase testProduct testDB) =
      (.alreadyProcessed, settledDB testEnv testEvent testPendingPurchase testProduct testDB) := by
  have h := (claim_C1_webhook_idempotent testEnv "rawbody1" testSig testEvent rfl
    (by simp [testEnv, testParse]) rfl).1 testDB testPendingPurchase testProduct
    (by simp [testDB, webhookMatch, testPendingPurchase, testEvent])
    (by simp [testDB, testProduct, testPendingPurchase, testEvent])
  exact ⟨h.1, h.2.2.2⟩

/-- With a correct signature the handler never reports `invalidSignature`. -/
theorem handleWebhook_valid_sig_not_invalid (env : Env) (rawBody : String) (db : DB) :
    ¬ (handleWebhook env rawBody (env.hmacSha256 env.webhookSecret rawBody) db).1 =
      .invalidSignature := by
  intro h
  simp only [handleWebhook] at h
  rw [if_neg (by simp)] at h
  rcases hp : env.parseEvent rawBody with _ | ev <;> simp only [hp] at h
  · simp at h
  · by_cases hev : ev.event ≠ "payment.captured"
    · rw [if_pos hev] at h
      simp at h
    · rw [if_neg hev] at h
      rcases hf : db.purchases.filter (webhookMatch ev.order_id) with _ | ⟨p, rest⟩ <;>
        simp only [hf] at h
      · simp at h
      · rcases hq : db.products.find? (fun q => q.id == p.product_id) with _ | prod <;>
          simp only [hq] at h
        · simp at h
        · simp at h

/-- **C2** — the handler throws `InvalidSignature` exactly when the signature
header differs from the HMAC-SHA256 of the raw body under the webhook secret;
on that failure no state is mutated and nothing else runs; in particular a
tampered body presented with the original body's signature is rejected
whenever the two digests differ. -/
theorem claim_C2_signature_verification (env : Env) :
    (∀ rawBody sig db,
      (handleWebhook env rawBody sig db).1 = .invalidSignature ↔
        sig ≠ env.hmacSha256 env.webhookSecret rawBody) ∧
    (∀ rawBody sig db, sig ≠ env.hmacSha256 env.webhookSecret rawBody →
      handleWebhook env rawBody sig db = (.invalidSignature, db)) ∧
    (∀ original tampered db,
      env.hmacSha256 env.webhookSecret tampered ≠ env.hmacSha256 env.webhookSecret original →
      handleWebhook env tampered (env.hmacSha256 env.webhookSecret original) db =
        (.invalidSignature, db)) := by
  have hrej : ∀ rawBody sig db, sig ≠ env.hmacSha256 env.webhookSecret rawBody →
      handleWebhook env rawBody sig db = (.invalidSignature, db) := by
    intro rawBody sig db h
    simp [handleWebhook, Ne.symm h]
  refine ⟨?_, hrej, ?_⟩
  · intro rawBody sig db
    constructor
    · intro h
      by_contra hne
      rw [hne] at h
      exact handleWebhook_valid_sig_not_invalid env rawBody db h
    · intro h
      rw [hrej rawBody sig db h]
  · intro original tampered db h
    exact hrej tampered (env.hmacSha256 env.webhookSecret original) db (Ne.symm h)

/-- Witness for C2: wrong signature and tampered body on the test fixtures. -/
theorem claim_C2_witness :
    handleWebhook testEnv "rawbody1" "bogus" testDB = (.invalidSignature, testDB) ∧
    handleWebhook testEnv "tampered" testSig testDB = (.invalidSignature, testDB) := by
  refine ⟨(claim_C2_signature_verification testEnv).2.1 "rawbody1" "bogus" testDB
    (by simp [testEnv, testHmac]), ?_⟩
  have h := (claim_C2_signature_verification testEnv).2.2 "rawbody1" "tampered" testDB
    (by simp [testEnv, testHmac])
  exact h

/-- **C5** — every earnings row the settlement processor creates carries
`platform_fee = round2(total × rate)` and `seller_amount = round2(total − fee)`;
for 2-decimal-place totals the second rounding is the identity, so the seller
amount is the exact remainder and fee plus seller amount equals the total to
the cent; at total 100.00 and rate 0.10 the split is 10.00 / 90.00. -/
theorem claim_C5_commission_split :
    (∀ env rawBody sig db out dbPost,
      handleWebhook env rawBody sig db = (out, dbPost) →
      ∀ e ∈ dbPost.earnings, e ∉ db.earnings →
        e.platform_fee = platformFee e.total_amount env.commissionRate ∧
        e.seller_amount = sellerAmount e.total_amount env.commissionRate) ∧
    (∀ totalAmount rate : ℚ, TwoDp totalAmount →
      sellerAmount totalAmount rate = totalAmount - platformFee totalAmount rate ∧
      platformFee totalAmount rate + sellerAmount totalAmount rate = totalAmount) ∧
    platformFee 100 (1/10) = 10 ∧ sellerAmount 100 (1/10) = 90 := by
  refine ⟨?_, ?_, platformFee_100, sellerAmount_100⟩
  · intro env rawBody sig db out dbPost h e he hne
    simp only [handleWebhook] at h
    by_cases hsig : env.hmacSha256 env.webhookSecret rawBody ≠ sig
    · rw [if_pos hsig] at h
      cases h
      exact absurd he hne
    · rw [if_neg hsig] at h
      rcases hp : env.parseEvent rawBody with _ | ev <;> simp only [hp] at h
      · cases h
        exact absurd he hne
      · by_cases hev : ev.event ≠ "payment.captured"
        · rw [if_pos hev] at h
          cases h
          exact absurd he hne
        · rw [if_neg hev] at h
          rcases hf : db.purchases.filter (webhookMatch ev.order_id) with _ | ⟨p, rest⟩ <;>
            simp only [hf] at h
          · cases h
            exact absurd he hne
          · rcases hq : db.products.find? (fun q => q.id == p.product_id) with _ | prod <;>
              simp only [hq] at h
            · cases h
              exact absurd he hne
            · cases h
              rcases List.mem_append.mp he with hl | hr
              · exact absurd hl hne
              · rcases List.mem_singleton.mp hr with rfl
                exact ⟨rfl, rfl⟩
  · intro totalAmount rate htwo
    have hseller : sellerAmount totalAmount rate =
        totalAmount - platformFee totalAmount rate :=
      round2_twoDp (twoDp_sub htwo (twoDp_round2 _))
    exact ⟨hseller, by rw [hseller]; ring⟩

/-- Witness for C5: the earnings row of the concrete settlement run, and the
exact split at total 100.00, rate 0.10. -/
theorem claim_C5_witness :
    (10 : ℚ) = platformFee (100 : ℚ) testEnv.commissionRate ∧
    sellerAmount 100 (1/10) = 100 - platformFee 100 (1/10) ∧
    platformFee 100 (1/10) + sellerAmount 100 (1/10) = 100 := by
  have h1 := claim_C5_commission_split.1 testEnv "rawbody1" testSig testDB
    (.success 20) testSettledDB handleWebhook_test_run
    ⟨20, 1, 100, 10, 90⟩ (by simp [testSettledDB]) (by simp [testDB])
  have h2 := claim_C5_commission_split.2.1 100 (1/10) ⟨10000, by norm_num⟩
  exact ⟨h1.1, h2⟩

/-- **C10** — the configured commission rate falls back to 0.10 when the
`PLATFORM_COMMISSION_RATE` value is unset/non-numeric (`Number` gives `NaN`,
modelled `none`) or equal to 0, because `||` treats both as falsy; hence the
configured rate is never 0; any other numeric value is taken as-is. -/
theorem claim_C10_commission_rate_fallback :
    platformCommissionRate none = 1/10 ∧
    platformCommissionRate (some 0) = 1/10 ∧
    (∀ v, platformCommissionRate v ≠ 0) ∧
    (∀ q : ℚ, q ≠ 0 → platformCommissionRate (some q) = q) := by
  refine ⟨rfl, by norm_num [platformCommissionRate], ?_, ?_⟩
  · intro v
    rcases v with _ | q
    · norm_num [platformCommissionRate]
    · by_cases hq : q = 0 <;> simp [platformCommissionRate, hq]
  · intro q hq
    simp [platformCommissionRate, hq]

/-- Witness for C10: a configured rate of 0.25 is kept, a configured rate of 0
is not representable. -/
theorem claim_C10_witness :
    platformCommissionRate (some (1/4)) = 1/4 ∧ platformCommissionRate (some 0) ≠ 0 :=
  ⟨claim_C10_commission_rate_fallback.2.2.2 (1/4) (by norm_num),
    claim_C10_commission_rate_fallback.2.2.1 (some 0)⟩

/-- Counterexample to C3: the source runs the conditional `paid` update and the
earnings insert as two separate `pool.query` statements with no transaction, so
when the earnings insert fails after the update has committed, the state holds
a `paid` purchase and no earnings row — refuting "either both take effect or
neither does". -/
theorem claim_C3_counterexample :
    (handleWebhookF testEnv false false true "rawbody1" testSig testDB).1 = .dbFailure ∧
    (handleWebhookF testEnv false false true "rawbody1" testSig testDB).2.purchases =
      [⟨20, 2, 10, some "order_1", some "pay_1", 100, .paid⟩] ∧
    (handleWebhookF testEnv false false true "rawbody1" testSig testDB).2.earnings = [] := by
  refine ⟨?_, ?_, ?_⟩ <;>
    simp [handleWebhookF, testEnv, testParse, testHmac, testSig, testDB, testProduct,
      testPendingPurchase, testEvent, webhookMatch, markPaid, List.filter, List.find?]

/-- **C3 (amended)** — settlement is not atomic: the `paid` transition and the
earnings insert are separate statements.  On a run where no query fails both
take effect together; when the earnings insert fails after the update, the
purchase stays `paid` while no earnings row is written. -/
theorem claim_C3_settlement_two_statements :
    (∀ env rawBody sig db,
      handleWebhookF env false false false rawBody sig db = handleWebhook env rawBody sig db) ∧
    (∀ env rawBody sig ev,
      env.hmacSha256 env.webhookSecret rawBody = sig →
      env.parseEvent rawBody = some ev →
      ev.event = "payment.captured" →
      ∀ db p prod,
        db.purchases.filter (webhookMatch ev.order_id) = [p] →
        db.products.find? (fun q => q.id == p.product_id) = some prod →
        handleWebhookF env false false false rawBody sig db =
          (.success p.id, settledDB env ev p prod db) ∧
        handleWebhookF env false false true rawBody sig db =
          (.dbFailure,
            { db with purchases := db.purchases.map (markPaid ev.payment_id ev.order_id) })) := by
  constructor
  · intro env rawBody sig db
    simp [handleWebhookF, handleWebhook]
  · intro env rawBody sig ev hsig hparse hcap db p prod hfilter hfind
    constructor
    · simp [handleWebhookF, hsig, hparse, hcap, hfilter, hfind, settledDB]
    · simp [handleWebhookF, hsig, hparse, hcap, hfilter, hfind]

/-- Witness for C3 (amended): the failure-free run settles purchase 20 and
writes its earnings row; the run whose insert fails leaves it `paid` with no
earnings. -/
theorem claim_C3_witness :
    handleWebhookF testEnv false false false "rawbody1" testSig testDB =
      (.success 20, settledDB testEnv testEvent testPendingPurchase testProduct testDB) ∧
    handleWebhookF testEnv false false true "rawbody1" testSig testDB =
      (.dbFailure,
        { testDB with purchases :=
            testDB.purchases.map (markPaid testEvent.payment_id testEvent.order_id) }) := by
  exact claim_C3_settlement_two_statements.2 testEnv "rawbody1" testSig testEvent rfl
    (by simp [testEnv, testParse]) rfl testDB testPendingPurchase testProduct
    (by simp [testDB, webhookMatch, testPendingPurchase, testEvent])
    (by simp [testDB, testProduct, testPendingPurchase, testEvent])

/-- When the product exists, the buyer is not its seller and no matching paid
purchase is present, `createOrder` reaches the insert step, after deleting any
stale pending/failed row for the pair. -/
theorem createOrder_reaches_insert (buyerId productId npid : Nat) (noid : String)
    (db : DB) (prod : Product)
    (hfind : db.products.find? (fun p => p.id == productId) = some prod)
    (hself : prod.seller_id ≠ buyerId)
    (hnopaid : ∀ q ∈ db.purchases, pairMatch buyerId productId q = true → q.status ≠ .paid) :
    ∃ kept : List Purchase,
      (kept = db.purchases ∨
        ∃ ex, db.purchases.find? (pairMatch buyerId productId) = some ex ∧
          ex.status ≠ .paid ∧ kept = db.purchases.filter (fun pc => pc.id != ex.id)) ∧
      createOrder buyerId productId npid noid db =
        createOrderInsert buyerId productId npid noid prod { db with purchases := kept } := by
  have hbeq : (prod.seller_id == buyerId) = false := by simp [hself]
  rcases hex : db.purchases.find? (pairMatch buyerId productId) with _ | ex
  · exact ⟨db.purchases, Or.inl rfl, by simp [createOrder, hfind, hbeq, hex]⟩
  · have hexst : ex.status ≠ .paid :=
      hnopaid ex (List.mem_of_find?_eq_some hex) (List.find?_some hex)
    refine ⟨db.purchases.filter (fun pc => pc.id != ex.id), Or.inr ⟨ex, rfl, hexst, rfl⟩, ?_⟩
    simp [createOrder, hfind, hbeq, hex, hexst]

/-- **C6** — free path: for a product priced 0, a non-seller buyer with no paid
purchase of it gets a `paid` purchase of amount 0 inserted together with a
zero-valued earnings row referencing it, the result is the free acquisition,
and no gateway order is created. -/
theorem claim_C6_free_path (buyerId productId npid : Nat) (noid : String)
    (db : DB) (prod : Product)
    (hfind : db.products.find? (fun p => p.id == productId) = some prod)
    (hprice : prod.price = 0)
    (hself : prod.seller_id ≠ buyerId)
    (hnopaid : ∀ q ∈ db.purchases, pairMatch buyerId productId q = true → q.status ≠ .paid) :
    ∃ kept : List Purchase,
      (kept = db.purchases ∨
        ∃ ex, db.purchases.find? (pairMatch buyerId productId) = some ex ∧
          ex.status ≠ .paid ∧ kept = db.purchases.filter (fun pc => pc.id != ex.id)) ∧
      createOrder buyerId productId npid noid db =
        (.ok .free,
          { db with
            purchases := kept ++ [⟨npid, buyerId, productId, none, none, 0, .paid⟩],
            earnings := db.earnings ++ [⟨npid, prod.seller_id, 0, 0, 0⟩] }) ∧
      (createOrder buyerId productId npid noid db).2.gatewayOrders = db.gatewayOrders := by
  obtain ⟨kept, hkept, heq⟩ :=
    createOrder_reaches_insert buyerId productId npid noid db prod hfind hself hnopaid
  refine ⟨kept, hkept, ?_, ?_⟩ <;> rw [heq] <;> simp [createOrderInsert, hprice]

/-- **C7** — paid path: for a product with positive price, a non-seller buyer
with no paid purchase of it causes exactly one gateway order over
`round(price × 100)` minor units, exactly one new `pending` purchase storing
the returned order reference (and the price, in major units), the order
reference and minor-unit amount are returned, and no earnings row is
created. -/
theorem claim_C7_paid_path (buyerId productId npid : Nat) (noid : String)
    (db : DB) (prod : Product)
    (hfind : db.products.find? (fun p => p.id == productId) = some prod)
    (hprice : 0 < prod.price)
    (hself : prod.seller_id ≠ buyerId)
    (hnopaid : ∀ q ∈ db.purchases, pairMatch buyerId productId q = true → q.status ≠ .paid) :
    ∃ kept : List Purchase,
      (kept = db.purchases ∨
        ∃ ex, db.purchases.find? (pairMatch buyerId productId) = some ex ∧
          ex.status ≠ .paid ∧ kept = db.purchases.filter (fun pc => pc.id != ex.id)) ∧
      createOrder buyerId productId npid noid db =
        (.ok (.paidOrder noid (round (prod.price * 100))),
          { db with
            purchases := kept ++
              [⟨npid, buyerId, productId, some noid, none, prod.price, .pending⟩],
            gatewayOrders := db.gatewayOrders ++ [⟨noid, round (prod.price * 100)⟩] }) ∧
      (createOrder buyerId productId npid noid db).2.earnings = db.earnings := by
  obtain ⟨kept, hkept, heq⟩ :=
    createOrder_reaches_insert buyerId productId npid noid db prod hfind hself hnopaid
  refine ⟨kept, hkept, ?_, ?_⟩ <;> rw [heq] <;> simp [createOrderInsert, hprice.ne']

/-- A free product (price 0) of seller 1. -/
def freeProduct : Product := ⟨11, 1, 0⟩

/-- A catalog holding only the free product, no purchases yet. -/
def freeDB : DB := ⟨[freeProduct], [], [], []⟩

/-- Witness for C6: buyer 2 acquires the free product: a `paid` purchase of
amount 0 and a zero earnings row, no gateway order. -/
theorem claim_C6_witness :
    createOrder 2 11 21 "ord_f" freeDB =
      (.ok .free, ⟨[freeProduct], [⟨21, 2, 11, none, none, 0, .paid⟩], [⟨21, 1, 0, 0, 0⟩], []⟩) := by
  obtain ⟨kept, hkept, heq, -⟩ := claim_C6_free_path 2 11 21 "ord_f" freeDB freeProduct rfl rfl
    (by decide) (by simp [freeDB])
  rcases hkept with rfl | ⟨ex, hex, -, -⟩
  · simpa [freeDB, freeProduct] using heq
  · simp [freeDB] at hex

/-- A catalog holding only the 100.00 product, no purchases yet. -/
def paidDB : DB := ⟨[testProduct], [], [], []⟩

/-- Witness for C7: buyer 2 starts buying the 100.00 product: one gateway
order over 10000 paise, one `pending` purchase, no earnings. -/
theorem claim_C7_witness :
    createOrder 2 10 22 "ord_p" paidDB =
      (.ok (.paidOrder "ord_p" 10000),
        ⟨[testProduct], [⟨22, 2, 10, some "ord_p", none, 100, .pending⟩], [],
          [⟨"ord_p", 10000⟩]⟩) := by
  obtain ⟨kept, hkept, heq, -⟩ := claim_C7_paid_path 2 10 22 "ord_p" paidDB testProduct rfl
    (by norm_num [testProduct]) (by decide) (by simp [paidDB])
  have hr : round ((100 : ℚ) * 100) = 10000 := by norm_num [round_eq]
  rcases hkept with rfl | ⟨ex, hex, -, -⟩
  · rw [heq]
    simp [paidDB, testProduct, hr]
  · simp [paidDB] at hex

/-- `find?` skips a prefix in which nothing matches. -/
theorem find?_append_of_none {α : Type} (p : α → Bool) (l1 l2 : List α)
    (h : ∀ a ∈ l1, p a = false) : (l1 ++ l2).find? p = l2.find? p := by
  induction l1 with
  | nil => rfl
  | cons a t ih =>
    rw [List.cons_append, List.find?_cons_of_neg _ (by simp [h a (by simp)])]
    exact ih fun x hx => h x (by simp [hx])

/-- **C8** — duplicate handling in `createOrder`: an existing `paid` purchase
for the (buyer, product) pair makes the call fail with the 409 conflict and
leaves the state unchanged; an existing `pending`/`failed` row is deleted
before proceeding; hence two sequential calls for a paid product with no
confirmation in between leave exactly one `pending` row for the pair, never
two. -/
theorem claim_C8_duplicate_purchase_policy :
    (∀ buyerId productId npid noid db prod ex,
      db.products.find? (fun p => p.id == productId) = some prod →
      prod.seller_id ≠ buyerId →
      db.purchases.find? (pairMatch buyerId productId) = some ex →
      ex.status = .paid →
      createOrder buyerId productId npid noid db = (.error .alreadyOwned, db)) ∧
    (∀ buyerId productId npid noid db prod ex,
      db.products.find? (fun p => p.id == productId) = some prod →
      prod.seller_id ≠ buyerId →
      db.purchases.find? (pairMatch buyerId productId) = some ex →
      ex.status ≠ .paid →
      createOrder buyerId productId npid noid db =
        createOrderInsert buyerId productId npid noid prod
          { db with purchases := db.purchases.filter (fun pc => pc.id != ex.id) }) ∧
    (∀ buyerId productId npid1 noid1 npid2 noid2 db prod,
      db.products.find? (fun p => p.id == productId) = some prod →
      prod.seller_id ≠ buyerId →
      0 < prod.price →
      (∀ q ∈ db.purchases, pairMatch buyerId productId q = false) →
      (∀ q ∈ db.purchases, q.id ≠ npid1) →
      (createOrder buyerId productId npid2 noid2
          (createOrder buyerId productId npid1 noid1 db).2).2.purchases =
        db.purchases ++
          [⟨npid2, buyerId, productId, some noid2, none, prod.price, .pending⟩] ∧
      ((createOrder buyerId productId npid2 noid2
          (createOrder buyerId productId npid1 noid1 db).2).2.purchases.filter
            (pairMatch buyerId productId)) =
        [⟨npid2, buyerId, productId, some noid2, none, prod.price, .pending⟩]) := by
  refine ⟨?_, ?_, ?_⟩
  · intro buyerId productId npid noid db prod ex hfind hself hex hpaid
    have hbeq : (prod.seller_id == buyerId) = false := by simp [hself]
    simp [createOrder, hfind, hbeq, hex, hpaid]
  · intro buyerId productId npid noid db prod ex hfind hself hex hexst
    have hbeq : (prod.seller_id == buyerId) = false := by simp [hself]
    simp [createOrder, hfind, hbeq, hex, hexst]
  · intro buyerId productId npid1 noid1 npid2 noid2 db prod hfind hself hprice hnone hfresh
    have hbeq : (prod.seller_id == buyerId) = false := by simp [hself]
    have hfind1 : db.purchases.find? (pairMatch buyerId productId) = none :=
      List.find?_eq_none.mpr fun q hq => by simp [hnone q hq]
    have h1 : (createOrder buyerId productId npid1 noid1 db).2 =
        { db with
          purchases := db.purchases ++
            [⟨npid1, buyerId, productId, some noid1, none, prod.price, .pending⟩],
          gatewayOrders := db.gatewayOrders ++ [⟨noid1, round (prod.price * 100)⟩] } := by
      simp [createOrder, hfind, hbeq, hfind1, createOrderInsert, hprice.ne']
    rw [h1]
    have h2 : db.purchases.filter (fun pc => pc.id != npid1) = db.purchases :=
      List.filter_eq_self.mpr fun q hq => by simp [hfresh q hq]
    have hrun : (createOrder buyerId productId npid2 noid2
        { db with
          purchases := db.purchases ++
            [⟨npid1, buyerId, productId, some noid1, none, prod.price, .pending⟩],
          gatewayOrders :=
            db.gatewayOrders ++ [⟨noid1, round (prod.price * 100)⟩] }).2.purchases =
        db.purchases ++
          [⟨npid2, buyerId, productId, some noid2, none, prod.price, .pending⟩] := by
      simp [createOrder, hfind, hbeq, hfind1, createOrderInsert, hprice.ne', pairMatch, h2]
    refine ⟨hrun, ?_⟩
    rw [hrun, List.filter_append]
    have hnil : db.purchases.filter (pairMatch buyerId productId) = [] :=
      List.filter_eq_nil_iff.mpr fun q hq => by simp [hnone q hq]
    simp [hnil, pairMatch]

/-- Catalog with the 100.00 product already owned (paid) by buyer 2. -/
def ownedDB : DB := ⟨[testProduct], [⟨40, 2, 10, none, none, 100, .paid⟩], [], []⟩

/-- Witness for C8: repurchase of an owned product is a 409 conflict with no
state change, and two sequential initiations leave exactly the one fresh
pending row. -/
theorem claim_C8_witness :
    createOrder 2 10 41 "o3" ownedDB = (.error .alreadyOwned, ownedDB) ∧
    (createOrder 2 10 32 "o2" (createOrder 2 10 31 "o1" paidDB).2).2.purchases =
      [⟨32, 2, 10, some "o2", none, 100, .pending⟩] := by
  constructor
  · exact claim_C8_duplicate_purchase_policy.1 2 10 41 "o3" ownedDB testProduct
      ⟨40, 2, 10, none, none, 100, .paid⟩ rfl (by decide) (by simp [ownedDB, pairMatch]) rfl
  · have h := (claim_C8_duplicate_purchase_policy.2.2 2 10 31 "o1" 32 "o2" paidDB testProduct
      rfl (by decide) (by norm_num [testProduct]) (by simp [paidDB]) (by simp [paidDB])).1
    simpa [paidDB] using h

/-- A non-pending row never satisfies the settlement-update predicate. -/
theorem webhookMatch_eq_false_of_not_pending {oid : String} {pc : Purchase}
    (h : pc.status ≠ .pending) : webhookMatch oid pc = false := by
  simp [webhookMatch, h]

/-- Both branches of the insert step only append purchase rows. -/
theorem mem_createOrderInsert_purchases (buyerId productId npid : Nat) (noid : String)
    (prod : Product) (db1 : DB) {p : Purchase} (hp : p ∈ db1.purchases) :
    p ∈ (createOrderInsert buyerId productId npid noid prod db1).2.purchases := by
  unfold createOrderInsert
  split <;> simp [hp]

/-- **C9** — a `paid` purchase row survives every operation unchanged: with
distinct row ids, `createOrder` never deletes it (only the non-paid stale row
is deleted) and `handleWebhook` never rewrites it (the settlement update only
touches rows currently `pending`). -/
theorem claim_C9_paid_rows_immutable :
    (∀ buyerId productId npid noid db,
      (db.purchases.map Purchase.id).Nodup →
      ∀ p ∈ db.purchases, p.status = .paid →
        p ∈ (createOrder buyerId productId npid noid db).2.purchases) ∧
    (∀ env rawBody sig db, ∀ p ∈ db.purchases, p.status = .paid →
      p ∈ (handleWebhook env rawBody sig db).2.purchases) ∧
    (∀ pid oid pc, pc.status ≠ .pending → markPaid pid oid pc = pc) := by
  have hmark : ∀ (pid oid : String) (pc : Purchase), pc.status ≠ .pending →
      markPaid pid oid pc = pc := fun pid oid pc h =>
    markPaid_of_not_match (by simp [webhookMatch_eq_false_of_not_pending h])
  refine ⟨?_, ?_, hmark⟩
  · intro buyerId productId npid noid db hnodup p hp hpaid
    simp only [createOrder]
    split
    · exact hp
    · next prod hfind =>
      split
      · exact hp
      · split
        · next ex hex =>
          split
          · exact hp
          · next hexst =>
            apply mem_createOrderInsert_purchases
            simp only [List.mem_filter]
            refine ⟨hp, ?_⟩
            by_cases hid : p.id = ex.id
            · have hpe : p = ex :=
                List.inj_on_of_nodup_map hnodup hp (List.mem_of_find?_eq_some hex) hid
              rw [hpe] at hpaid
              exact absurd hpaid hexst
            · simp [hid]
        · exact mem_createOrderInsert_purchases _ _ _ _ _ _ hp
  · intro env rawBody sig db p hp hpaid
    have hkeep : ∀ pid oid : String, markPaid pid oid p = p := fun pid oid =>
      hmark pid oid p (by simp [hpaid])
    have hmap : ∀ pid oid : String, p ∈ db.purchases.map (markPaid pid oid) :=
      fun pid oid => List.mem_map.mpr ⟨p, hp, hkeep pid oid⟩
    simp only [handleWebhook]
    split
    · exact hp
    · split
      · exact hp
      · next ev heq =>
        split
        · exact hp
        · split
          · exact hmap ev.payment_id ev.order_id
          · split
            · exact hmap ev.payment_id ev.order_id
            · exact hmap ev.payment_id ev.order_id

/-- Witness for C9: the paid row of `ownedDB` survives a purchase initiation
by another buyer and a webhook delivery. -/
theorem claim_C9_witness :
    (⟨40, 2, 10, none, none, 100, .paid⟩ : Purchase) ∈
      (createOrder 3 10 50 "o9" ownedDB).2.purchases ∧
    (⟨40, 2, 10, none, none, 100, .paid⟩ : Purchase) ∈
      (handleWebhook testEnv "rawbody1" testSig ownedDB).2.purchases := by
  constructor
  · exact claim_C9_paid_rows_immutable.1 3 10 50 "o9" ownedDB (by simp [ownedDB])
      ⟨40, 2, 10, none, none, 100, .paid⟩ (by simp [ownedDB]) rfl
  · exact claim_C9_paid_rows_immutable.2.1 testEnv "rawbody1" testSig ownedDB
      ⟨40, 2, 10, none, none, 100, .paid⟩ (by simp [ownedDB]) rfl
